import Mathlib

/-!
Verification of the interactive core of the semantic-layer-builder terminal
application: the filter engine, the selection controller, the payload cache,
the input arena and the screen state machine, embedded shallowly from
src/app.rs, src/component.rs and src/model.rs.

Strings are modelled as lists of characters. Rust usize arithmetic that can
underflow is modelled with a guarded subtraction returning Option. Fallible
operations return Except. The fetch collaborator (Model::query_data) is a
function parameter; get_data additionally reports the list of record ids it
fetched, so that the number of fetch calls is observable.
-/

/-- Guarded usize subtraction: Rust unsigned subtraction fails on underflow. -/
def checkedSub (a b : Nat) : Option Nat :=
  if b ≤ a then some (a - b) else none

/-- Fixed row height used for the scrollbar metric (src/app.rs ITEM_HEIGHT). -/
def ITEM_HEIGHT : Nat := 4

/-- One row header from the data source (src/model.rs Header). -/
structure Header where
  rowid : Nat
  session_id : Option Nat
  name : List Char
  timestamp : List Char
deriving DecidableEq

/-- Sub-focus of the Main screen (src/component.rs MainInput). -/
inductive MainInput
  | None
  | Filter
deriving DecidableEq

/-- Sub-focus of the Editing screen (src/component.rs EditingInput). -/
inductive EditingInput
  | Key
  | Value
deriving DecidableEq

/-- Screen state (src/app.rs CurrentScreen). -/
inductive CurrentScreen
  | Main (focused : MainInput)
  | Editing (focused : EditingInput)
  | Exiting
deriving DecidableEq

/-- Ratatui scrollbar state, reduced to the two fields the core writes:
the content length fixed at construction and the current position. -/
structure ScrollbarState where
  content_length : Nat
  position : Nat
deriving DecidableEq

/-- ScrollbarState::new. -/
def ScrollbarState.new (content_length : Nat) : ScrollbarState :=
  { content_length := content_length, position := 0 }

/-- ScrollbarState::position (the builder that moves the thumb). -/
def ScrollbarState.set_position (s : ScrollbarState) (p : Nat) : ScrollbarState :=
  { s with position := p }

/-- Application state (src/app.rs AppState). The ratatui TableState is
modelled by its selected cell (state_selected). -/
structure AppState where
  items : List Header
  cached : Option (Nat × List Char)
  selected_index : Nat
  filtered_indexes : List Nat
  state_selected : Option Nat
  scroll_state : ScrollbarState
  current_screen : CurrentScreen
deriving DecidableEq

/-- AppState::new, taking the record list the Model collaborator returned.
The scrollbar length (protos.len() - 1) * ITEM_HEIGHT underflows on usize
when the record list is empty, so the construction is guarded. -/
def AppState.new (protos : List Header) : Option AppState :=
  (checkedSub protos.length 1).map (fun m =>
    { items := protos
      cached := none
      selected_index := 0
      filtered_indexes := []
      state_selected := some 0
      scroll_state := ScrollbarState.new (m * ITEM_HEIGHT)
      current_screen := CurrentScreen.Main MainInput.None })

/-- AppState::matches_filter: Rust str::contains, i.e. contiguous
case-sensitive substring containment of f in v. -/
def AppState.matches_filter (_s : AppState) (v f : List Char) : Bool :=
  decide (f <:+: v)

/-- AppState::filter: recompute filtered_indexes from items and the filter
text. Empty text yields all indices; otherwise enumerate, keep the matching
pairs and project the indices. -/
def AppState.filter (s : AppState) (filter_value : List Char) : AppState :=
  if filter_value.isEmpty then
    { s with filtered_indexes := List.range s.items.length }
  else
    { s with filtered_indexes :=
        (s.items.enum.filter (fun p => s.matches_filter p.2.name filter_value)).map Prod.fst }

/-- AppState::get_data: resolve the selected filtered index to an item, keep
the cached payload when the cached rowid matches, otherwise fetch. Returns
the updated state together with the list of rowids passed to fetch, so that
fetch calls can be counted; errors propagate. -/
def AppState.get_data (s : AppState) (fetch : Nat → Except String (List Char)) :
    Except String (AppState × List Nat) :=
  if s.filtered_indexes.isEmpty then
    Except.ok ({ s with cached := none }, [])
  else
    match (s.filtered_indexes[s.selected_index]?).orElse
        (fun _ => s.filtered_indexes.getLast?) with
    | none => Except.error "last() on an empty filtered_indexes"
    | some real_index =>
      match s.items[real_index]? with
      | none => Except.error "Cannot find item from index"
      | some item =>
        if (match s.cached with
            | some (cached_index, _) => item.rowid == cached_index
            | none => false) then
          Except.ok (s, [])
        else
          match fetch item.rowid with
          | Except.ok d => Except.ok ({ s with cached := some (item.rowid, d) }, [item.rowid])
          | Except.error e => Except.error e

/-- AppState::update_state: set the selection and sync the scrollbar. -/
def AppState.update_state (s : AppState) (new_state : Nat) : AppState :=
  { s with selected_index := new_state
           state_selected := some new_state
           scroll_state := s.scroll_state.set_position (new_state * ITEM_HEIGHT) }

/-- AppState::next_row: advance the table selection by one, wrapping to 0 at
the end; the wrap test compares against filtered_indexes.len() - 1, a usize
subtraction that underflows when the filtered view is empty. -/
def AppState.next_row (s : AppState) : Option AppState :=
  (match s.state_selected with
   | some i => (checkedSub s.filtered_indexes.length 1).map
       (fun m => if m ≤ i then 0 else i + 1)
   | none => some 0).map s.update_state

/-- AppState::previous_row: move the table selection back by one, wrapping to
filtered_indexes.len() - 1 from 0 — the same underflowing usize subtraction. -/
def AppState.previous_row (s : AppState) : Option AppState :=
  (match s.state_selected with
   | some i => if i == 0 then checkedSub s.filtered_indexes.length 1 else checkedSub i 1
   | none => some 0).map s.update_state

/-- Input identifiers (src/component.rs InputId). -/
inductive InputId
  | Filter
  | Key
  | Value
deriving DecidableEq

/-- One text input (src/component.rs InputField). -/
structure InputField where
  content : List Char
  is_active : Bool
deriving DecidableEq

/-- InputField::new. -/
def InputField.new : InputField :=
  { content := [], is_active := false }

/-- The map of input fields (src/component.rs InputArena); the HashMap is
modelled as an association list with distinct keys. -/
structure InputArena where
  fields : List (InputId × InputField)
deriving DecidableEq

/-- InputArena::new: insert the three fixed inputs, all empty and inactive. -/
def InputArena.new : InputArena :=
  { fields := [(InputId.Filter, InputField.new), (InputId.Key, InputField.new),
               (InputId.Value, InputField.new)] }

/-- InputArena::get_content: map lookup, erring when the key is absent. -/
def InputArena.get_content (a : InputArena) (k : InputId) : Except String (List Char) :=
  match a.fields.lookup k with
  | some f => Except.ok f.content
  | none => Except.error "Cannot find the key in the input arena"

/-- InputArena::get_mut followed by an in-place update of the found field:
the value under key k is rewritten by f, other entries are untouched;
erring when the key is absent. -/
def InputArena.modify_field (a : InputArena) (k : InputId) (f : InputField → InputField) :
    Except String InputArena :=
  match a.fields.lookup k with
  | some _ => Except.ok { fields := a.fields.map (fun p => if p.1 = k then (p.1, f p.2) else p) }
  | none => Except.error "Cannot find the key in the input arena"

/-- InputArena::value_pop: String::pop drops the last character, a no-op on
empty content. -/
def InputArena.value_pop (a : InputArena) (k : InputId) : Except String InputArena :=
  a.modify_field k (fun f => { f with content := f.content.dropLast })

/-- InputArena::value_push: String::push appends one character. -/
def InputArena.value_push (a : InputArena) (k : InputId) (c : Char) : Except String InputArena :=
  a.modify_field k (fun f => { f with content := f.content ++ [c] })

/-- Application root (src/app.rs App); the Model collaborator is external. -/
structure App where
  state : AppState
  input_arena : InputArena
  exit : Bool
deriving DecidableEq

/-- Key codes the handlers distinguish (the crossterm codes matched in
src/app.rs). -/
inductive KeyCode
  | Char (c : Char)
  | Backspace
  | Enter
  | Esc
  | Tab
  | Down
  | Up
  | Other
deriving DecidableEq

/-- App::handle_key_event_exit_screen: y sets the exit flag, n and q go back
to Main(Filter), anything else is a no-op. -/
def App.handle_key_event_exit_screen (a : App) (code : KeyCode) : App :=
  match code with
  | KeyCode.Char c =>
      if c = 'y' then { a with exit := true }
      else if c = 'n' ∨ c = 'q' then
        { a with state := { a.state with current_screen := CurrentScreen.Main MainInput.Filter } }
      else a
  | _ => a

/-- Sample header used by concrete witnesses. -/
def sampleHeader1 : Header :=
  { rowid := 1, session_id := none, name := String.toList "tcp_syn", timestamp := [] }

/-- Second sample header used by concrete witnesses. -/
def sampleHeader2 : Header :=
  { rowid := 2, session_id := none, name := String.toList "tcp_ack", timestamp := [] }

/-- Sample application state with two records, both selected and filtered. -/
def sampleState : AppState :=
  { items := [sampleHeader1, sampleHeader2]
    cached := none
    selected_index := 0
    filtered_indexes := [0, 1]
    state_selected := some 0
    scroll_state := ScrollbarState.new 4
    current_screen := CurrentScreen.Main MainInput.None }

/-- Sample application state with an empty filtered view but a selection. -/
def sampleEmptyState : AppState :=
  { items := []
    cached := none
    selected_index := 0
    filtered_indexes := []
    state_selected := some 0
    scroll_state := ScrollbarState.new 0
    current_screen := CurrentScreen.Main MainInput.None }

/-- Sample fetch collaborator: payload is the decimal record id. -/
def sampleFetch (id : Nat) : Except String (List Char) :=
  Except.ok (Nat.toDigits 10 id)

/-- Sample application root used by concrete witnesses. -/
def sampleApp : App :=
  { state := sampleEmptyState, input_arena := InputArena.new, exit := false }
/-- Membership in the recomputed filtered view: exactly the valid indices
whose record name contains the filter text (for empty text the containment
is vacuous, so this also covers the identity branch). -/
theorem mem_filter_filtered_indexes (s : AppState) (t : List Char) (i : Nat) :
    i ∈ (s.filter t).filtered_indexes ↔
      ∃ h : i < s.items.length, t <:+: (s.items.get ⟨i, h⟩).name := by
  cases t with
  | nil =>
    rw [show (s.filter []).filtered_indexes = List.range s.items.length from rfl,
      List.mem_range]
    constructor
    · intro h
      exact ⟨h, List.nil_infix⟩
    · rintro ⟨h, -⟩
      exact h
  | cons a l =>
    rw [show (s.filter (a :: l)).filtered_indexes
        = (s.items.enum.filter (fun p => s.matches_filter p.2.name (a :: l))).map Prod.fst
        from rfl]
    simp only [List.mem_map, List.mem_filter, AppState.matches_filter, decide_eq_true_eq]
    constructor
    · rintro ⟨⟨j, hdr⟩, ⟨hmem, hmatch⟩, rfl⟩
      have hj : s.items[j]? = some hdr := List.mk_mem_enum_iff_getElem?.mp hmem
      have hlt : j < s.items.length := by
        by_contra hge
        rw [List.getElem?_eq_none (by omega)] at hj
        exact Option.noConfusion hj
      refine ⟨hlt, ?_⟩
      have hval : s.items[j] = hdr := by
        rw [List.getElem?_eq_getElem hlt] at hj
        exact Option.some.inj hj
      rw [List.get_eq_getElem, hval]
      exact hmatch
    · rintro ⟨h, hinf⟩
      refine ⟨(i, s.items.get ⟨i, h⟩), ⟨?_, hinf⟩, rfl⟩
      refine List.mk_mem_enum_iff_getElem?.mpr ?_
      rw [List.getElem?_eq_getElem h, List.get_eq_getElem]

/-- The recomputed filtered view is strictly increasing. -/
theorem pairwise_filter_filtered_indexes (s : AppState) (t : List Char) :
    List.Pairwise (fun a b => a < b) (s.filter t).filtered_indexes := by
  cases t with
  | nil =>
    rw [show (s.filter []).filtered_indexes = List.range s.items.length from rfl]
    exact List.pairwise_lt_range _
  | cons a l =>
    rw [show (s.filter (a :: l)).filtered_indexes
        = (s.items.enum.filter (fun p => s.matches_filter p.2.name (a :: l))).map Prod.fst
        from rfl]
    rw [List.pairwise_map]
    refine List.Pairwise.filter _ ?_
    have h1 : List.Pairwise (fun a b => a < b) (List.map Prod.fst s.items.enum) := by
      rw [List.enum_map_fst]
      exact List.pairwise_lt_range _
    exact List.pairwise_map.mp h1

/-- C1: for every record list and filter text, the filter operation yields
the identity index sequence on empty text, and otherwise exactly the indices
of the records whose name contains the text as a contiguous case-sensitive
substring; in both cases the result is strictly increasing and every index
is valid for the record list. -/
theorem filter_filteredView_spec (s : AppState) (t : List Char) :
    (s.filter []).filtered_indexes = List.range s.items.length ∧
    (∀ i : Nat, i ∈ (s.filter t).filtered_indexes ↔
        ∃ h : i < s.items.length, s.matches_filter (s.items.get ⟨i, h⟩).name t = true) ∧
    List.Pairwise (fun a b => a < b) (s.filter t).filtered_indexes ∧
    (∀ i ∈ (s.filter t).filtered_indexes, i < s.items.length) := by
  refine ⟨rfl, ?_, pairwise_filter_filtered_indexes s t, ?_⟩
  · intro i
    rw [mem_filter_filtered_indexes]
    simp only [AppState.matches_filter, decide_eq_true_eq]
  · intro i hi
    obtain ⟨h, -⟩ := (mem_filter_filtered_indexes s t i).mp hi
    exact h

/-- Witness for C1 at a concrete two-record state and the filter text "tcp". -/
theorem filter_filteredView_spec_witness :
    (sampleState.filter []).filtered_indexes = List.range sampleState.items.length ∧
    (∀ i : Nat, i ∈ (sampleState.filter (String.toList "tcp")).filtered_indexes ↔
        ∃ h : i < sampleState.items.length,
          sampleState.matches_filter (sampleState.items.get ⟨i, h⟩).name
            (String.toList "tcp") = true) ∧
    List.Pairwise (fun a b => a < b)
      (sampleState.filter (String.toList "tcp")).filtered_indexes ∧
    (∀ i ∈ (sampleState.filter (String.toList "tcp")).filtered_indexes,
        i < sampleState.items.length) :=
  filter_filteredView_spec sampleState (String.toList "tcp")

/-- C6: narrowing the filter never adds matches — when t1 is contained in t2
(stated with the program's own containment test), every index in the view
filtered by t2 is also in the view filtered by t1. -/
theorem filter_narrowing_subset (s : AppState) (t1 t2 : List Char)
    (h : s.matches_filter t2 t1 = true) :
    ∀ i ∈ (s.filter t2).filtered_indexes, i ∈ (s.filter t1).filtered_indexes := by
  intro i hi
  rw [mem_filter_filtered_indexes] at hi ⊢
  obtain ⟨hlt, hinf⟩ := hi
  have h12 : t1 <:+: t2 := of_decide_eq_true h
  exact ⟨hlt, h12.trans hinf⟩

/-- Witness for C6 with t1 = "tc" contained in t2 = "tcp". -/
theorem filter_narrowing_subset_witness :
    sampleState.matches_filter (String.toList "tcp") (String.toList "tc") = true ∧
    ∀ i ∈ (sampleState.filter (String.toList "tcp")).filtered_indexes,
      i ∈ (sampleState.filter (String.toList "tc")).filtered_indexes :=
  ⟨by decide,
   filter_narrowing_subset sampleState (String.toList "tc") (String.toList "tcp") (by decide)⟩

/-- C8: the filter operation writes only filtered_indexes — the record list,
the cached payload, the selected position, the table selection, the
scrollbar and the screen state are untouched (the filter text itself is a
read-only argument). -/
theorem filter_frame (s : AppState) (t : List Char) :
    (s.filter t).items = s.items ∧
    (s.filter t).cached = s.cached ∧
    (s.filter t).selected_index = s.selected_index ∧
    (s.filter t).state_selected = s.state_selected ∧
    (s.filter t).scroll_state = s.scroll_state ∧
    (s.filter t).current_screen = s.current_screen := by
  cases t <;> exact ⟨rfl, rfl, rfl, rfl, rfl, rfl⟩

/-- C4: with an empty filtered view, payload resolution clears the cache,
returns successfully with nothing to display and never calls fetch; and an
empty record list yields an empty filtered view for every filter text. -/
theorem get_data_empty_view (s : AppState) (fetch : Nat → Except String (List Char))
    (h : s.filtered_indexes = []) :
    s.get_data fetch = Except.ok ({ s with cached := none }, []) ∧
    (∀ (s0 : AppState) (t : List Char), s0.items = [] →
        (s0.filter t).filtered_indexes = []) := by
  constructor
  · unfold AppState.get_data
    rw [h]
    rfl
  · intro s0 t h0
    refine List.eq_nil_iff_forall_not_mem.mpr ?_
    intro i hi
    obtain ⟨hlt, -⟩ := (mem_filter_filtered_indexes s0 t i).mp hi
    rw [h0] at hlt
    exact absurd hlt (by simp)

/-- Witness for C4 at a concrete state with an empty filtered view. -/
theorem get_data_empty_view_witness :
    sampleEmptyState.get_data sampleFetch
        = Except.ok ({ sampleEmptyState with cached := none }, []) ∧
    (∀ (s0 : AppState) (t : List Char), s0.items = [] →
        (s0.filter t).filtered_indexes = []) :=
  get_data_empty_view sampleEmptyState sampleFetch rfl

/-- C3: from a valid selected position in a non-empty filtered view, next_row
advances by one (wrapping to 0 from the last position) and previous_row then
returns the selection to the original position. -/
theorem next_then_previous_roundtrip (s : AppState) (p : Nat)
    (hsel : s.state_selected = some p)
    (hp : p < s.filtered_indexes.length) :
    ∃ s1 s2, s.next_row = some s1 ∧ s1.previous_row = some s2 ∧
      s1.state_selected
        = some (if p = s.filtered_indexes.length - 1 then 0 else p + 1) ∧
      s2.state_selected = some p ∧ s2.selected_index = p := by
  have hcs : checkedSub s.filtered_indexes.length 1
      = some (s.filtered_indexes.length - 1) := by
    unfold checkedSub
    rw [if_pos (by omega)]
  have hnext : s.next_row = some (s.update_state
      (if s.filtered_indexes.length - 1 ≤ p then 0 else p + 1)) := by
    unfold AppState.next_row
    rw [hsel, hcs]
    rfl
  by_cases hend : s.filtered_indexes.length - 1 ≤ p
  · have hpeq : p = s.filtered_indexes.length - 1 := by omega
    rw [if_pos hend] at hnext
    have hprev : (s.update_state 0).previous_row
        = (checkedSub s.filtered_indexes.length 1).map (s.update_state 0).update_state := rfl
    rw [hcs] at hprev
    refine ⟨s.update_state 0, (s.update_state 0).update_state (s.filtered_indexes.length - 1),
      hnext, hprev, ?_, ?_, ?_⟩
    · rw [if_pos hpeq]
      rfl
    · rw [hpeq]
      rfl
    · rw [hpeq]
      rfl
  · have hplt : p + 1 < s.filtered_indexes.length := by omega
    rw [if_neg hend] at hnext
    have hcs2 : checkedSub (p + 1) 1 = some p := by
      unfold checkedSub
      rw [if_pos (by omega), Nat.add_sub_cancel]
    have hprev : (s.update_state (p + 1)).previous_row
        = (checkedSub (p + 1) 1).map (s.update_state (p + 1)).update_state := rfl
    rw [hcs2] at hprev
    refine ⟨s.update_state (p + 1), (s.update_state (p + 1)).update_state p,
      hnext, hprev, ?_, rfl, rfl⟩
    rw [if_neg (by omega)]
    rfl

/-- Witness for C3 at a concrete state with two filtered rows, position 0. -/
theorem next_then_previous_roundtrip_witness :
    sampleState.state_selected = some 0 ∧ 0 < sampleState.filtered_indexes.length ∧
    (∃ s1 s2, sampleState.next_row = some s1 ∧ s1.previous_row = some s2 ∧
      s1.state_selected
        = some (if 0 = sampleState.filtered_indexes.length - 1 then 0 else 0 + 1) ∧
      s2.state_selected = some 0 ∧ s2.selected_index = 0) :=
  ⟨rfl, by decide, next_then_previous_roundtrip sampleState 0 rfl (by decide)⟩

/-- C7: with a non-empty filtered view, next_row advances the selection by
one, wrapping to 0 at the last position; with an empty filtered view and a
selection present, the guarded len - 1 subtraction makes next_row fail for
every selection, and the failing branch of previous_row is reachable too. -/
theorem selection_wrap_and_underflow :
    (∀ (s : AppState) (i : Nat), s.state_selected = some i →
        i < s.filtered_indexes.length →
        s.next_row = some (s.update_state
          (if i = s.filtered_indexes.length - 1 then 0 else i + 1))) ∧
    (∀ (s : AppState) (i : Nat), s.state_selected = some i →
        s.filtered_indexes = [] → s.next_row = none) ∧
    (∃ s : AppState, s.filtered_indexes = [] ∧ s.state_selected = some 0 ∧
        s.previous_row = none) := by
  refine ⟨?_, ?_, sampleEmptyState, rfl, rfl, rfl⟩
  · intro s i hsel hi
    have hcs : checkedSub s.filtered_indexes.length 1
        = some (s.filtered_indexes.length - 1) := by
      unfold checkedSub
      rw [if_pos (by omega)]
    unfold AppState.next_row
    rw [hsel, hcs]
    show some (s.update_state (if s.filtered_indexes.length - 1 ≤ i then 0 else i + 1))
      = some (s.update_state (if i = s.filtered_indexes.length - 1 then 0 else i + 1))
    by_cases hend : i = s.filtered_indexes.length - 1
    · rw [if_pos (by omega), if_pos hend]
    · rw [if_neg (by omega), if_neg hend]
  · intro s i hsel hflt
    unfold AppState.next_row
    rw [hsel, hflt]
    rfl

/-- Witness for C7: the concrete empty-view state with a selection makes
next_row fail. -/
theorem selection_wrap_and_underflow_witness :
    sampleEmptyState.next_row = none :=
  selection_wrap_and_underflow.2.1 sampleEmptyState 0 rfl rfl

/-- C10: application-state construction fails on an empty record list (the
scrollbar length subtraction underflows) and succeeds on every non-empty
record list. -/
theorem appstate_new_requires_record :
    AppState.new [] = none ∧
    ∀ protos : List Header, protos ≠ [] → (AppState.new protos).isSome = true := by
  constructor
  · rfl
  · intro protos h
    have hlen : 0 < protos.length := List.length_pos.mpr h
    unfold AppState.new
    have hcs : checkedSub protos.length 1 = some (protos.length - 1) := by
      unfold checkedSub
      rw [if_pos (by omega)]
    rw [hcs]
    rfl

/-- Witness for C10: construction fails on the empty list and succeeds on a
one-record list. -/
theorem appstate_new_requires_record_witness :
    AppState.new [] = none ∧ (AppState.new [sampleHeader1]).isSome = true :=
  ⟨appstate_new_requires_record.1,
   appstate_new_requires_record.2 [sampleHeader1] (by decide)⟩

/-- C5: in the Exiting screen, y sets the exit flag, n and q move the screen
to Main(Filter) — which is distinct from Main(None) — and every other key
leaves the application unchanged. -/
theorem exit_screen_transitions (a : App) :
    (a.handle_key_event_exit_screen (KeyCode.Char 'y')).exit = true ∧
    (a.handle_key_event_exit_screen (KeyCode.Char 'n')).state.current_screen
        = CurrentScreen.Main MainInput.Filter ∧
    (a.handle_key_event_exit_screen (KeyCode.Char 'q')).state.current_screen
        = CurrentScreen.Main MainInput.Filter ∧
    CurrentScreen.Main MainInput.Filter ≠ CurrentScreen.Main MainInput.None ∧
    (∀ c : Char, c ≠ 'y' → c ≠ 'n' → c ≠ 'q' →
        a.handle_key_event_exit_screen (KeyCode.Char c) = a) ∧
    (∀ code : KeyCode, (∀ c : Char, code ≠ KeyCode.Char c) →
        a.handle_key_event_exit_screen code = a) := by
  refine ⟨?_, ?_, ?_, by decide, ?_, ?_⟩
  · simp [App.handle_key_event_exit_screen]
  · simp [App.handle_key_event_exit_screen]
  · simp [App.handle_key_event_exit_screen]
  · intro c hy hn hq
    simp [App.handle_key_event_exit_screen, hy, hn, hq]
  · intro code h
    cases code with
    | Char c => exact absurd rfl (h c)
    | Backspace => rfl
    | Enter => rfl
    | Esc => rfl
    | Tab => rfl
    | Down => rfl
    | Up => rfl
    | Other => rfl

/-- Witness for C5 at the concrete sample application. -/
theorem exit_screen_transitions_witness :
    (sampleApp.handle_key_event_exit_screen (KeyCode.Char 'y')).exit = true ∧
    (sampleApp.handle_key_event_exit_screen (KeyCode.Char 'n')).state.current_screen
        = CurrentScreen.Main MainInput.Filter ∧
    (sampleApp.handle_key_event_exit_screen (KeyCode.Char 'q')).state.current_screen
        = CurrentScreen.Main MainInput.Filter ∧
    CurrentScreen.Main MainInput.Filter ≠ CurrentScreen.Main MainInput.None ∧
    (∀ c : Char, c ≠ 'y' → c ≠ 'n' → c ≠ 'q' →
        sampleApp.handle_key_event_exit_screen (KeyCode.Char c) = sampleApp) ∧
    (∀ code : KeyCode, (∀ c : Char, code ≠ KeyCode.Char c) →
        sampleApp.handle_key_event_exit_screen code = sampleApp) :=
  exit_screen_transitions sampleApp

/-- Mapping an entry function that preserves keys over the association list
preserves which keys have an entry. -/
theorem lookup_isSome_map_fst_preserving (l : List (InputId × InputField))
    (g : InputId × InputField → InputId × InputField)
    (hg : ∀ p, (g p).1 = p.1) (k2 : InputId) :
    ((l.map g).lookup k2).isSome = (l.lookup k2).isSome := by
  induction l with
  | nil => rfl
  | cons hd tl ih =>
    obtain ⟨k1, v1⟩ := hd
    simp only [List.map_cons]
    rcases hgp : g (k1, v1) with ⟨gk, gv⟩
    have hfst : gk = k1 := by
      have h1 := hg (k1, v1)
      rw [hgp] at h1
      exact h1
    subst hfst
    by_cases h2 : (k2 == gk) = true <;> simp [List.lookup_cons, h2, ih]

/-- C9: the arena constructor installs an entry for each of the three input
ids, every operation preserves that invariant, and get_content, value_push
and value_pop therefore never return the NotFound error, whichever input id
they are invoked with. -/
theorem input_arena_never_notfound :
    (∀ k : InputId, (InputArena.new.fields.lookup k).isSome = true) ∧
    (∀ a : InputArena, (∀ k : InputId, (a.fields.lookup k).isSome = true) →
      ∀ (k : InputId) (c : Char),
        (∃ str, a.get_content k = Except.ok str) ∧
        (∃ a2, a.value_push k c = Except.ok a2 ∧
            ∀ k2 : InputId, (a2.fields.lookup k2).isSome = true) ∧
        (∃ a2, a.value_pop k = Except.ok a2 ∧
            ∀ k2 : InputId, (a2.fields.lookup k2).isSome = true)) := by
  constructor
  · intro k
    cases k <;> rfl
  · intro a ha k c
    obtain ⟨fld, hfld⟩ := Option.isSome_iff_exists.mp (ha k)
    refine ⟨⟨fld.content, ?_⟩, ?_, ?_⟩
    · unfold InputArena.get_content
      rw [hfld]
    · refine ⟨{ fields := a.fields.map (fun p =>
          if p.1 = k then (p.1, { p.2 with content := p.2.content ++ [c] }) else p) }, ?_, ?_⟩
      · unfold InputArena.value_push InputArena.modify_field
        rw [hfld]
      · intro k2
        have hpres := lookup_isSome_map_fst_preserving a.fields
            (fun p => if p.1 = k then (p.1, { p.2 with content := p.2.content ++ [c] }) else p)
            (fun p => by by_cases h : p.1 = k <;> simp [h]) k2
        exact hpres.trans (ha k2)
    · refine ⟨{ fields := a.fields.map (fun p =>
          if p.1 = k then (p.1, { p.2 with content := p.2.content.dropLast }) else p) }, ?_, ?_⟩
      · unfold InputArena.value_pop InputArena.modify_field
        rw [hfld]
      · intro k2
        have hpres := lookup_isSome_map_fst_preserving a.fields
            (fun p => if p.1 = k then (p.1, { p.2 with content := p.2.content.dropLast }) else p)
            (fun p => by by_cases h : p.1 = k <;> simp [h]) k2
        exact hpres.trans (ha k2)

/-- Witness for C9: pushing a character into the fresh arena succeeds and
keeps all three entries present. -/
theorem input_arena_never_notfound_witness :
    ∃ a2, InputArena.new.value_push InputId.Key 'a' = Except.ok a2 ∧
        ∀ k2 : InputId, (a2.fields.lookup k2).isSome = true :=
  (input_arena_never_notfound.2 InputArena.new
    input_arena_never_notfound.1 InputId.Key 'a').2.1

/-- Resolution of the selected filtered index: get(selection) with fallback
to last() picks exactly the entry at min(selection, len - 1). -/
theorem resolve_min (l : List Nat) (i : Nat) :
    (l[i]?).orElse (fun _ => l.getLast?) = l[min i (l.length - 1)]? := by
  by_cases hi : i < l.length
  · rw [show min i (l.length - 1) = i from by omega]
    rw [List.getElem?_eq_getElem hi]
    rfl
  · rw [show min i (l.length - 1) = l.length - 1 from by omega]
    rw [List.getElem?_eq_none (by omega)]
    rw [List.getLast?_eq_getElem? l]
    rfl

/-- A resolved item whose rowid equals the cached id is served from the
cache: get_data returns the state unchanged and fetches nothing. -/
theorem get_data_hit (s : AppState) (fetch : Nat → Except String (List Char))
    (r : Nat) (item : Header) (c : Nat) (p : List Char)
    (hie : s.filtered_indexes.isEmpty = false)
    (hr : (s.filtered_indexes[s.selected_index]?).orElse
        (fun _ => s.filtered_indexes.getLast?) = some r)
    (hitem : s.items[r]? = some item)
    (hcached : s.cached = some (c, p))
    (hid : item.rowid = c) :
    s.get_data fetch = Except.ok (s, []) := by
  unfold AppState.get_data
  rw [hie, if_neg Bool.false_ne_true]
  simp only [hr, hitem, hcached, hid, beq_self_eq_true, if_true]

/-- From a cold cache, get_data reduces to a single fetch of the resolved
item, caching on success and propagating failure. -/
theorem get_data_cold (s : AppState) (fetch : Nat → Except String (List Char))
    (r : Nat) (item : Header)
    (hie : s.filtered_indexes.isEmpty = false)
    (hr : (s.filtered_indexes[s.selected_index]?).orElse
        (fun _ => s.filtered_indexes.getLast?) = some r)
    (hitem : s.items[r]? = some item)
    (hcold : s.cached = none) :
    s.get_data fetch = match fetch item.rowid with
      | Except.ok d => Except.ok ({ s with cached := some (item.rowid, d) }, [item.rowid])
      | Except.error e => Except.error e := by
  unfold AppState.get_data
  rw [hie, if_neg Bool.false_ne_true]
  simp only [hr, hitem, hcold, Bool.false_eq_true, if_false]

/-- C2: with a non-empty filtered view, get_data resolves the record at
FilteredView[min(selection, len - 1)] — the stored selection when in range,
else the last filtered index — returns without fetching when the cached id
equals the resolved record id, and from a cold cache two consecutive calls
with unchanged selection and record list perform exactly one fetch, the
second call being a cache hit. -/
theorem get_data_cache_spec (s : AppState) (fetch : Nat → Except String (List Char))
    (hne : s.filtered_indexes ≠ []) :
    ((s.filtered_indexes[s.selected_index]?).orElse (fun _ => s.filtered_indexes.getLast?)
        = s.filtered_indexes[min s.selected_index (s.filtered_indexes.length - 1)]?) ∧
    (∀ (r : Nat) (item : Header) (c : Nat) (p : List Char),
        (s.filtered_indexes[s.selected_index]?).orElse (fun _ => s.filtered_indexes.getLast?)
          = some r →
        s.items[r]? = some item →
        s.cached = some (c, p) →
        item.rowid = c →
        s.get_data fetch = Except.ok (s, [])) ∧
    (∀ (s2 : AppState) (calls : List Nat),
        s.cached = none →
        s.get_data fetch = Except.ok (s2, calls) →
        calls.length = 1 ∧ s2.get_data fetch = Except.ok (s2, [])) := by
  have hie : s.filtered_indexes.isEmpty = false := by
    cases hl : s.filtered_indexes with
    | nil => exact absurd hl hne
    | cons x xs => rfl
  refine ⟨resolve_min _ _, ?_, ?_⟩
  · intro r item c p hr hitem hcached hid
    exact get_data_hit s fetch r item c p hie hr hitem hcached hid
  · intro s2 calls hcold hok
    obtain ⟨r, hr⟩ : ∃ r, (s.filtered_indexes[s.selected_index]?).orElse
        (fun _ => s.filtered_indexes.getLast?) = some r := by
      rw [resolve_min]
      have hlt : min s.selected_index (s.filtered_indexes.length - 1)
          < s.filtered_indexes.length := by
        have hpos := List.length_pos.mpr hne
        omega
      exact ⟨_, List.getElem?_eq_getElem hlt⟩
    cases hitem : s.items[r]? with
    | none =>
      rw [AppState.get_data] at hok
      rw [hie, if_neg Bool.false_ne_true] at hok
      simp only [hr, hitem] at hok
      exact Except.noConfusion hok
    | some item =>
      rw [get_data_cold s fetch r item hie hr hitem hcold] at hok
      cases hfetch : fetch item.rowid with
      | error e =>
        simp only [hfetch] at hok
        exact Except.noConfusion hok
      | ok d =>
        simp only [hfetch] at hok
        injection hok with hpair
        injection hpair with hstate hcalls
        subst hstate
        subst hcalls
        constructor
        · rfl
        · exact get_data_hit ({ s with cached := some (item.rowid, d) }) fetch r item
            item.rowid d hie hr hitem rfl rfl

/-- Witness for C2 at a concrete one-record, cold-cache state. -/
theorem get_data_cache_spec_witness :
    sampleState.filtered_indexes ≠ [] ∧
    (((sampleState.filtered_indexes[sampleState.selected_index]?).orElse
        (fun _ => sampleState.filtered_indexes.getLast?)
        = sampleState.filtered_indexes[min sampleState.selected_index
            (sampleState.filtered_indexes.length - 1)]?) ∧
     (∀ (r : Nat) (item : Header) (c : Nat) (p : List Char),
        (sampleState.filtered_indexes[sampleState.selected_index]?).orElse
            (fun _ => sampleState.filtered_indexes.getLast?) = some r →
        sampleState.items[r]? = some item →
        sampleState.cached = some (c, p) →
        item.rowid = c →
        sampleState.get_data sampleFetch = Except.ok (sampleState, [])) ∧
     (∀ (s2 : AppState) (calls : List Nat),
        sampleState.cached = none →
        sampleState.get_data sampleFetch = Except.ok (s2, calls) →
        calls.length = 1 ∧ s2.get_data sampleFetch = Except.ok (s2, []))) :=
  ⟨by decide, get_data_cache_spec sampleState sampleFetch (by decide)⟩
